import Mathlib

/-!
Formal model of the PPTX find-and-replace service (src/app.py).

The program exposes a FastAPI endpoint that accepts a .pptx file and a JSON
list of replacement rules, applies the rules to every text unit of the
presentation, and returns the modified file.  This file embeds the three
core functions of src/app.py — apply_replacements_to_text,
replace_text_in_presentation and modify_pptx — as executable Lean
definitions and settles the specified properties about them.

Conventions of the embedding:

* Python strings are Lean String values (their lists of unicode scalars).
* A Python exception is modelled as an Option result / explicit error flag.
* The call into the host regex engine for a user-supplied pattern
  (re.sub(r.find, r.replace, out, flags) at src/app.py line 27) is modelled
  by an oracle parameter; an oracle answer of none models re.error.
* The case-insensitive literal branch (lines 34-35) compiles
  re.escape(r.find) — always a valid pattern that matches find literally
  and contains no capture groups — so its behaviour is modelled concretely,
  including CPython's processing of backslash escapes in the replacement
  template (re._compile_repl), which that branch performs on r.replace and
  which is not guarded by any try/except in the source.
-/

namespace DeckDoctor

/-- The pydantic model `class Replacement(BaseModel)` (src/app.py lines
12-16).  `find` and `replace` are required strings; `regex` and
`ignore_case` are `Optional[bool] = False`.  A JSON null passes
`Optional[bool]` and is falsy exactly like `False` in the conditions
`if r.regex` / `if r.ignore_case`, so the record stores plain booleans
with null normalised to `false` at validation time. -/
structure Replacement where
  find : String
  replace : String
  regex : Bool := false
  ignore_case : Bool := false
deriving DecidableEq, Repr

/-- One scanning step of Python `str.replace` for a non-empty needle
`old`: at skip-count 0, if `old` occurs at the current position, emit
`new` and consume the occurrence (the current character plus
`old.length - 1` further characters); otherwise keep the character.  A
positive skip count drops characters already consumed by a match. -/
def replGo (old new : List Char) : List Char → Nat → List Char
  | [], _ => []
  | _ :: rest, Nat.succ k => replGo old new rest k
  | c :: rest, 0 =>
    if List.isPrefixOf old (c :: rest) then
      new ++ replGo old new rest (old.length - 1)
    else
      c :: replGo old new rest 0

/-- Python `str.replace` with an empty needle inserts the replacement
before every character and once at the end. -/
def replEmpty (new : List Char) : List Char → List Char
  | [] => new
  | c :: rest => new ++ c :: replEmpty new rest

/-- Python `out.replace(old, new)`: all non-overlapping occurrences,
scanning left to right, on the character lists. -/
def pyReplaceL (s old new : List Char) : List Char :=
  if old = [] then replEmpty new s else replGo old new s 0

/-- Python `out.replace(old, new)` on strings. -/
def pyReplace (s old new : String) : String :=
  String.mk (pyReplaceL s.data old.data new.data)

/-- An item of a compiled `re.sub` replacement template: a literal
character, or a reference to group 0 (the whole match). -/
inductive TemplateItem where
  | lit (c : Char)
  | group0
deriving DecidableEq, Repr

/-- CPython's processing of backslash escapes in a `re.sub` replacement
string (`re._compile_repl`), specialised to a pattern with no capture
groups — which is exactly what `re.escape(find)` produces.  The result is
none when compiling the template raises `re.error`: a trailing backslash,
a reference to a nonexistent group (a digit 1-9 after the backslash, or a
\g form other than \g<0>), or an unknown escape of an ASCII letter.  The
known character escapes \\ \n \t \r \a \b \f \v and the octal \0 map to
their characters; an unknown escape of a non-letter is left alone
(backslash kept).  Multi-digit octal escapes are treated digit by digit;
no theorem below depends on them. -/
def parseRepl : List Char → Option (List TemplateItem)
  | [] => some []
  | c :: rest =>
    if c = '\\' then
      match rest with
      | [] => none
      | d :: rest2 =>
        if d = '\\' then Option.map (fun l => TemplateItem.lit '\\' :: l) (parseRepl rest2)
        else if d = 'n' then Option.map (fun l => TemplateItem.lit '\n' :: l) (parseRepl rest2)
        else if d = 't' then Option.map (fun l => TemplateItem.lit '\t' :: l) (parseRepl rest2)
        else if d = 'r' then Option.map (fun l => TemplateItem.lit '\r' :: l) (parseRepl rest2)
        else if d = 'a' then Option.map (fun l => TemplateItem.lit (Char.ofNat 7) :: l) (parseRepl rest2)
        else if d = 'b' then Option.map (fun l => TemplateItem.lit (Char.ofNat 8) :: l) (parseRepl rest2)
        else if d = 'f' then Option.map (fun l => TemplateItem.lit (Char.ofNat 12) :: l) (parseRepl rest2)
        else if d = 'v' then Option.map (fun l => TemplateItem.lit (Char.ofNat 11) :: l) (parseRepl rest2)
        else if d = 'g' then
          match rest2 with
          | '<' :: '0' :: '>' :: rest3 =>
            Option.map (fun l => TemplateItem.group0 :: l) (parseRepl rest3)
          | _ => none
        else if d = '0' then Option.map (fun l => TemplateItem.lit (Char.ofNat 0) :: l) (parseRepl rest2)
        else if d.isDigit then none
        else if d.isAlpha then none
        else Option.map (fun l => TemplateItem.lit '\\' :: TemplateItem.lit d :: l) (parseRepl rest2)
    else
      Option.map (fun l => TemplateItem.lit c :: l) (parseRepl rest)

/-- Render a compiled replacement template against the text matched by
the pattern (group 0). -/
def renderTemplate (matched : List Char) : List TemplateItem → List Char
  | [] => []
  | TemplateItem.lit c :: rest => c :: renderTemplate matched rest
  | TemplateItem.group0 :: rest => matched ++ renderTemplate matched rest

/-- Case-insensitive match of the literal needle at the head of the text
(`re.IGNORECASE`, simple lowercase folding). -/
def ciHeadMatch (pat s : List Char) : Bool :=
  List.isPrefixOf (pat.map Char.toLower) (s.map Char.toLower)

/-- Scanning loop of `re.compile(re.escape(find), re.IGNORECASE).sub`
for a non-empty needle: like `replGo` but matching case-insensitively and
emitting the rendered replacement template at each match (group 0 = the
matched original text, casing preserved). -/
def ciGo (pat : List Char) (items : List TemplateItem) : List Char → Nat → List Char
  | [], _ => []
  | _ :: rest, Nat.succ k => ciGo pat items rest k
  | c :: rest, 0 =>
    if ciHeadMatch pat (c :: rest) then
      renderTemplate (List.take pat.length (c :: rest)) items ++ ciGo pat items rest (pat.length - 1)
    else
      c :: ciGo pat items rest 0

/-- An empty pattern matches at every position including the end, so
`re.sub` inserts the rendered template everywhere (group 0 is empty). -/
def ciEmpty (items : List TemplateItem) : List Char → List Char
  | [] => renderTemplate [] items
  | c :: rest => renderTemplate [] items ++ c :: ciEmpty items rest

/-- `re.compile(re.escape(r.find), flags=re.IGNORECASE).sub(r.replace, out)`
(src/app.py lines 34-35) on character lists.  none models an uncaught
`re.error` raised while compiling the replacement template; CPython
compiles the template before scanning for matches, so a bad template
raises even when the pattern does not occur in the text. -/
def ciSubL (find rep s : List Char) : Option (List Char) :=
  match parseRepl rep with
  | none => none
  | some items =>
    if find = [] then some (ciEmpty items s) else some (ciGo find items s 0)

/-- The case-insensitive literal branch on strings. -/
def ciSub (find rep s : String) : Option String :=
  Option.map String.mk (ciSubL find.data rep.data s.data)

/-- Oracle for `re.sub(r.find, r.replace, out, flags=flags)` with a
user-supplied pattern (src/app.py line 27).  Arguments: find, replace,
text, ignore_case.  An answer of none models `re.error` (invalid pattern,
or invalid replacement template), which the source catches. -/
def Oracle : Type := String → String → String → Bool → Option String

/-- A degenerate oracle whose regex engine rejects everything; used to
instantiate theorems at rule lists that never reach the regex branch, or
that are meant to exercise the fallback. -/
def oraNone : Oracle := fun _ _ _ _ => none

/-- One iteration of the rule loop of `apply_replacements_to_text`
(src/app.py lines 23-37).  The regex branch consults the oracle and falls
back to `out.replace(r.find, r.replace)` when the oracle reports
`re.error`; the non-regex ignore-case branch is `ciSub` and is not
guarded, so its none (an uncaught exception) propagates; the plain branch
is `out.replace`. -/
def applyOne (ora : Oracle) (out : String) (r : Replacement) : Option String :=
  if r.regex then
    some (match ora r.find r.replace out r.ignore_case with
      | some s => s
      | none => pyReplace out r.find r.replace)
  else if r.ignore_case then
    ciSub r.find r.replace out
  else
    some (pyReplace out r.find r.replace)

/-- The `for r in replacements` loop: each rule transforms the
accumulated string; an uncaught exception aborts the loop. -/
def applyLoop (ora : Oracle) : String → List Replacement → Option String
  | out, [] => some out
  | out, r :: rs =>
    match applyOne ora out r with
    | some out2 => applyLoop ora out2 rs
    | none => none

/-- `apply_replacements_to_text(text, replacements)` (src/app.py lines
18-38).  `if not text: return text` short-circuits the empty string. -/
def apply_replacements_to_text (ora : Oracle) (text : String) (rs : List Replacement) : Option String :=
  if text = "" then some text else applyLoop ora text rs

example : pyReplace "aaa" "aa" "b" = "ba" := by decide
example : pyReplace "ab" "" "-" = "-a-b-" := by decide
example : pyReplace "a.b" "a.b" "x" = "x" := by decide
example : pyReplace "axb" "a.b" "x" = "axb" := by decide
example :
    apply_replacements_to_text oraNone "a"
      [⟨"a", "b", false, false⟩, ⟨"b", "c", false, false⟩] = some "c" := by decide
example : ciSub "hello" "HI" "Hello World" = some "HI World" := by decide
example : ciSub "hello" "\\n" "Hello" = some "\n" := by decide
example : ciSub "a" "\\" "xyz" = none := by decide
example : apply_replacements_to_text oraNone "a" [⟨"a", "\\", false, true⟩] = none := by decide

/-!
The presentation tree as the library (python-pptx) exposes it to
`replace_text_in_presentation`: slides, shapes (tables, text frames,
anything else), paragraphs, runs, table cells, optional speaker notes.
The formatting carried by a run besides its text is opaque to the source,
so it is a type parameter `α`.  Getting at the notes may fail in the
library; a slide whose notes are absent or inaccessible carries none.
-/

/-- A run: the smallest text unit, carrying text and opaque non-text
formatting attributes. -/
structure Run (α : Type) where
  text : String
  fmt : α
deriving DecidableEq, Repr

/-- A paragraph: an ordered list of runs. -/
structure Paragraph (α : Type) where
  runs : List (Run α)
deriving DecidableEq, Repr

/-- A text frame: an ordered list of paragraphs. -/
structure TextFrame (α : Type) where
  paragraphs : List (Paragraph α)
deriving DecidableEq, Repr

/-- A table cell, exposing a single text string (`cell.text`). -/
structure TableCell where
  text : String
deriving DecidableEq, Repr

/-- A table: its grid of cells, row-major, as visited by the source's
`for r in range(len(table.rows)): for c in range(len(table.columns))`
loops. -/
structure Table where
  cells : List (List TableCell)
deriving DecidableEq, Repr

/-- A shape, dispatched the way src/app.py lines 46 and 59 probe it: a
table (shape_type 19 with a table), a shape exposing a text frame, or
anything else (picture, chart, ...), which is skipped. -/
inductive Shape (α : Type) where
  | table (t : Table)
  | textFrame (tf : TextFrame α)
  | other
deriving DecidableEq, Repr

/-- A slide: its shapes and its optional notes text frame.  none covers
the slide having no notes container or the `slide.notes_slide` access
failing (both are swallowed by the try/except at lines 71-83). -/
structure Slide (α : Type) where
  shapes : List (Shape α)
  notes : Option (TextFrame α)
deriving DecidableEq, Repr

/-- A presentation: its slides in document order. -/
structure Presentation (α : Type) where
  slides : List (Slide α)
deriving DecidableEq, Repr

/-- The write log: each entry is (original text, new text) for one text
unit that the walker actually wrote back. -/
abbrev Log := List (String × String)

/-- Transform one text unit the way the source does at lines 65-68 /
51-55 / 77-80: read the text, run the transformer, write back only if the
result differs.  Returns (resulting text, write log, error flag); the
error flag models an exception raised by the transformer, in which case
nothing was written. -/
def stepText (ora : Oracle) (rs : List Replacement) (t : String) : String × Log × Bool :=
  match apply_replacements_to_text ora t rs with
  | some nt => if nt ≠ t then (nt, [(t, nt)], false) else (t, [], false)
  | none => (t, [], true)

/-- Process the elements of a list in order, Python-style: an element's
error aborts the traversal, keeping the mutations already made and
leaving the remaining elements untouched. -/
def stepList {β : Type} (f : β → β × Log × Bool) : List β → List β × Log × Bool
  | [] => ([], [], false)
  | x :: xs =>
    let r := f x
    if r.2.2 then (r.1 :: xs, r.2.1, true)
    else
      let r2 := stepList f xs
      (r.1 :: r2.1, r.2.1 ++ r2.2.1, r2.2.2)

/-- Run-level transform (src/app.py lines 64-68): only the run's text
field is touched. -/
def stepRun (ora : Oracle) (rs : List Replacement) (run : Run α) : Run α × Log × Bool :=
  let s := stepText ora rs run.text
  ({ run with text := s.1 }, s.2.1, s.2.2)

/-- Walk the runs of one paragraph in order. -/
def walkPara (ora : Oracle) (rs : List Replacement) (p : Paragraph α) : Paragraph α × Log × Bool :=
  let s := stepList (stepRun ora rs) p.runs
  (⟨s.1⟩, s.2.1, s.2.2)

/-- Walk the paragraphs of a text frame in order (the run-level loop of
lines 63-68, shared verbatim with the notes loop of lines 75-80). -/
def walkTF (ora : Oracle) (rs : List Replacement) (tf : TextFrame α) : TextFrame α × Log × Bool :=
  let s := stepList (walkPara ora rs) tf.paragraphs
  (⟨s.1⟩, s.2.1, s.2.2)

/-- Cell-level transform (src/app.py lines 50-55): the cell's whole text
is read, transformed and written back if different. -/
def stepCell (ora : Oracle) (rs : List Replacement) (c : TableCell) : TableCell × Log × Bool :=
  let s := stepText ora rs c.text
  (⟨s.1⟩, s.2.1, s.2.2)

/-- Walk the cells of one table row in order. -/
def walkRow (ora : Oracle) (rs : List Replacement) (row : List TableCell) : List TableCell × Log × Bool :=
  stepList (stepCell ora rs) row

/-- Walk a table row-major (lines 47-55). -/
def walkTable (ora : Oracle) (rs : List Replacement) (t : Table) : Table × Log × Bool :=
  let s := stepList (walkRow ora rs) t.cells
  (⟨s.1⟩, s.2.1, s.2.2)

/-- Dispatch on the shape kind (lines 46-68): tables are walked cell by
cell, text frames run by run, anything else is skipped. -/
def walkShape (ora : Oracle) (rs : List Replacement) : Shape α → Shape α × Log × Bool
  | Shape.table t =>
    let s := walkTable ora rs t
    (Shape.table s.1, s.2.1, s.2.2)
  | Shape.textFrame tf =>
    let s := walkTF ora rs tf
    (Shape.textFrame s.1, s.2.1, s.2.2)
  | Shape.other => (Shape.other, [], false)

/-- Walk one slide (lines 44-83): first the shapes — an exception there
propagates —, then the notes inside `try: ... except Exception: pass`, so
an exception raised while processing the notes is swallowed: the notes
mutations already made are kept and the slide reports no error. -/
def walkSlide (ora : Oracle) (rs : List Replacement) (s : Slide α) : Slide α × Log × Bool :=
  let sh := stepList (walkShape ora rs) s.shapes
  if sh.2.2 then (⟨sh.1, s.notes⟩, sh.2.1, true)
  else
    match s.notes with
    | none => (⟨sh.1, none⟩, sh.2.1, false)
    | some ntf =>
      let n := walkTF ora rs ntf
      (⟨sh.1, some n.1⟩, sh.2.1 ++ n.2.1, false)

/-- `replace_text_in_presentation(pres, replacements)` (src/app.py lines
40-83), with the write log and the uncaught-exception flag made
explicit. -/
def replace_text_in_presentation (ora : Oracle) (rs : List Replacement) (p : Presentation α) :
    Presentation α × Log × Bool :=
  let s := stepList (walkSlide ora rs) p.slides
  (⟨s.1⟩, s.2.1, s.2.2)

/-!  Erasing every text field; the walker leaves this skeleton — the
structure of the tree and all non-text attributes — intact. -/

/-- Erase the text of a run, keeping its formatting. -/
def stripRun (r : Run α) : Run α := ⟨"", r.fmt⟩

/-- Erase the text of every run of a paragraph. -/
def stripPara (p : Paragraph α) : Paragraph α := ⟨p.runs.map stripRun⟩

/-- Erase the text of every run of a text frame. -/
def stripTF (tf : TextFrame α) : TextFrame α := ⟨tf.paragraphs.map stripPara⟩

/-- Erase the text of a cell. -/
def stripCell (_ : TableCell) : TableCell := ⟨""⟩

/-- Erase the text of every cell of a table. -/
def stripTable (t : Table) : Table := ⟨t.cells.map (List.map stripCell)⟩

/-- Erase the texts of a shape. -/
def stripShape : Shape α → Shape α
  | Shape.table t => Shape.table (stripTable t)
  | Shape.textFrame tf => Shape.textFrame (stripTF tf)
  | Shape.other => Shape.other

/-- Erase the texts of a slide, body and notes. -/
def stripSlide (s : Slide α) : Slide α := ⟨s.shapes.map stripShape, s.notes.map stripTF⟩

/-- Erase every text of a presentation. -/
def stripPres (p : Presentation α) : Presentation α := ⟨p.slides.map stripSlide⟩

/-!
JSON payload validation (src/app.py lines 94-100).  `json.loads` of the
form field is external; its result, when it parses, is a `JValue`.  The
handler requires the parsed value to be a list and validates every
element with `Replacement.model_validate`.
-/

/-- A parsed JSON value. -/
inductive JValue where
  | null
  | bool (b : Bool)
  | num (n : Int)
  | str (s : String)
  | arr (items : List JValue)
  | obj (fields : List (String × JValue))

/-- pydantic V2 lax-mode coercion into `Optional[bool]`: booleans pass
through, null is allowed by `Optional` (and is then falsy, like `False`),
the integers 0 and 1 and a small set of strings coerce, anything else is
a validation error. -/
def laxBool : JValue → Option Bool
  | JValue.bool b => some b
  | JValue.null => some false
  | JValue.num n => if n = 0 then some false else if n = 1 then some true else none
  | JValue.str s =>
    let t := s.toLower
    if t = "true" ∨ t = "t" ∨ t = "yes" ∨ t = "y" ∨ t = "on" ∨ t = "1" then some true
    else if t = "false" ∨ t = "f" ∨ t = "no" ∨ t = "n" ∨ t = "off" ∨ t = "0" then some false
    else none
  | _ => none

/-- An optional boolean field: absent means the default `False`. -/
def fieldBool (o : Option JValue) : Option Bool :=
  match o with
  | none => some false
  | some v => laxBool v

/-- `Replacement.model_validate(item)` (src/app.py line 98): the element
must be an object; `find` and `replace` are required strings with no
default; `regex` and `ignore_case` are optional booleans; extra fields
are ignored (the pydantic default). -/
def validateItem : JValue → Except String Replacement
  | JValue.obj fs =>
    match fs.lookup "find" with
    | some (JValue.str f) =>
      match fs.lookup "replace" with
      | some (JValue.str rep) =>
        match fieldBool (fs.lookup "regex"), fieldBool (fs.lookup "ignore_case") with
        | some rg, some ic => Except.ok ⟨f, rep, rg, ic⟩
        | _, _ => Except.error "value is not a valid boolean"
      | _ => Except.error "field required: replace"
    | _ => Except.error "field required: find"
  | _ => Except.error "input is not a valid dict"

/-- The payload handling of `modify_pptx` (src/app.py lines 94-100): the
parsed JSON must be a list, and every element must validate. -/
def validateReplacements : JValue → Except String (List Replacement)
  | JValue.arr items => items.mapM validateItem
  | _ => Except.error "replacements JSON must be a list of objects"

/-- Well-formedness of one record, mirroring `validateItem`'s success. -/
def itemWF : JValue → Bool
  | JValue.obj fs =>
    (match fs.lookup "find" with | some (JValue.str _) => true | _ => false) &&
    (match fs.lookup "replace" with | some (JValue.str _) => true | _ => false) &&
    (fieldBool (fs.lookup "regex")).isSome &&
    (fieldBool (fs.lookup "ignore_case")).isSome
  | _ => false

/-- Well-formedness of the whole payload. -/
def payloadWF : JValue → Bool
  | JValue.arr items => items.all itemWF
  | _ => false

/-- The HTTP-visible outcome of one request: a streamed modified
presentation with its suggested filename, an HTTPException with status
400 and a detail message, or an unhandled exception that the framework
surfaces as a generic 500 response. -/
inductive ApiResponse (α : Type) where
  | ok (pres : Presentation α) (filename : String)
  | badRequest (detail : String)
  | serverError
deriving DecidableEq, Repr

/-- `file.filename.lower().endswith(".pptx")` (src/app.py line 90), on
the character list of the filename. -/
def filenameOk (filename : String) : Bool :=
  List.isSuffixOf (String.data ".pptx") (filename.data.map Char.toLower)

/-- `modify_pptx` (src/app.py lines 85-122).  The payload argument is the
result of `json.loads` (none = JSONDecodeError); the loaded argument is
the result of `Presentation(bio)` (none = any load failure).  Saving the
mutated presentation is treated as the library guarantees it: it does not
fail on a tree the library itself produced. -/
def modify_pptx (ora : Oracle) (filename : String) (payload : Option JValue)
    (loaded : Option (Presentation α)) : ApiResponse α :=
  if ¬ (filenameOk filename) then ApiResponse.badRequest "Upload a .pptx file."
  else
    match payload with
    | none => ApiResponse.badRequest "Invalid replacements payload: JSONDecodeError"
    | some v =>
      match validateReplacements v with
      | Except.error e => ApiResponse.badRequest ("Invalid replacements payload: " ++ e)
      | Except.ok reps =>
        match loaded with
        | none => ApiResponse.badRequest "Unable to parse pptx"
        | some pres =>
          let s := replace_text_in_presentation ora reps pres
          if s.2.2 then ApiResponse.serverError
          else ApiResponse.ok s.1 ("modified-" ++ filename)

example :
    validateReplacements (JValue.arr [JValue.obj [("find", JValue.str "x")]]) =
      Except.error "field required: replace" := by rfl
example :
    validateItem (JValue.obj [("find", JValue.str ""), ("replace", JValue.str "y")]) =
      Except.ok ⟨"", "y", false, false⟩ := by rfl
example : filenameOk "Deck.PPTX" = true := by decide
example : filenameOk "deck.txt" = false := by decide
example :
    modify_pptx (α := Nat) oraNone "deck.pptx" (some (JValue.arr [])) (some ⟨[]⟩) =
      ApiResponse.ok ⟨[]⟩ "modified-deck.pptx" := by decide

/-!  Lemmas about the transformer. -/

/-- Unfolding one iteration of the rule loop. -/
theorem applyLoop_cons (ora : Oracle) (t : String) (r : Replacement) (rs : List Replacement) :
    applyLoop ora t (r :: rs) = Option.bind (applyOne ora t r) (fun u => applyLoop ora u rs) := by
  cases h : applyOne ora t r <;> simp [applyLoop, h]

/-- C1: for every input text and every ordered rule list, the Text
Transformer applies the rules sequentially in declared order: the result
on `r :: rs` is obtained by applying `r` to the text and then running the
remaining rules on the accumulated output of `r`, not on the original
text.  (An empty input short-circuits before the loop.) -/
theorem apply_rules_in_declared_order (ora : Oracle) (t : String) (r : Replacement)
    (rs : List Replacement) (h : t ≠ "") :
    apply_replacements_to_text ora t (r :: rs) =
      Option.bind (applyOne ora t r) (fun u => applyLoop ora u rs) := by
  unfold apply_replacements_to_text
  rw [if_neg h, applyLoop_cons]

/-- C1 witness: the spec's example — rules find a / replace b then find b /
replace c applied to "a" yield "c" (chained, not independent). -/
theorem apply_rules_in_declared_order_witness :
    apply_replacements_to_text oraNone "a"
      [⟨"a", "b", false, false⟩, ⟨"b", "c", false, false⟩] = some "c" := by
  rw [apply_rules_in_declared_order oraNone "a" ⟨"a", "b", false, false⟩
    [⟨"b", "c", false, false⟩] (by decide)]
  decide

/-- C3: evaluation of the code at the failing input.  In the non-regex
ignore-case branch the replacement string is passed to `Pattern.sub` as a
template, so a backslash escape in it is interpreted rather than copied:
replacing hello (ignoring case) by the two-character string backslash-n
turns "Hello" into a one-character newline string, not into the
replacement text as supplied. -/
theorem ci_replacement_template_interpreted :
    apply_replacements_to_text oraNone "Hello" [⟨"hello", "\\n", false, true⟩] = some "\n" ∧
      ("\n" : String) ≠ "\\n" := by decide

/-- C4: evaluation of the code at the failing input.  A replacement
string consisting of a lone backslash is an invalid `re.sub` template
(bad escape at end of pattern); in the non-regex ignore-case branch
nothing catches the resulting `re.error`, so the transformer raises to
its caller — modelled by none. -/
theorem transformer_raises_on_bad_template :
    apply_replacements_to_text oraNone "a" [⟨"a", "\\", false, true⟩] = none := by decide

/-- C5: a rule with regex true whose pattern the regex engine rejects
(oracle answer none) does not fail: the transformer falls back to exact
literal substring replacement of the raw find text with replace. -/
theorem invalid_regex_falls_back_to_literal (ora : Oracle) (f rep t : String) (ic : Bool)
    (hora : ora f rep t ic = none) (ht : t ≠ "") :
    apply_replacements_to_text ora t [⟨f, rep, true, ic⟩] = some (pyReplace t f rep) := by
  unfold apply_replacements_to_text
  rw [if_neg ht, applyLoop_cons]
  have h1 : applyOne ora t ⟨f, rep, true, ic⟩ =
      some (match ora f rep t ic with
        | some s => s
        | none => pyReplace t f rep) := rfl
  rw [h1, hora]
  simp [applyLoop]

/-- An oracle agreeing with CPython on the pattern "[": an unterminated
character set fails to compile, so `re.sub` raises `re.error`. -/
def oraBracket : Oracle := fun f _ _ _ => if f = "[" then none else some ""

/-- C5 witness: the spec's example — find "[" with regex true and empty
replace applied to "a[b" yields "ab" via the literal fallback. -/
theorem invalid_regex_falls_back_to_literal_witness :
    apply_replacements_to_text oraBracket "a[b" [⟨"[", "", true, false⟩] = some "ab" := by
  rw [invalid_regex_falls_back_to_literal oraBracket "[" "" "a[b" false (by decide) (by decide)]
  decide

/-!  The no-op rule (C8). -/

/-- Replacing the empty needle by the empty replacement changes nothing. -/
theorem replEmpty_nil (s : List Char) : replEmpty [] s = s := by
  induction s with
  | nil => rfl
  | cons c rest ih => simp [replEmpty, ih]

/-- A skip count of `pre.length` consumes exactly `pre`. -/
theorem replGo_skip (old new : List Char) (pre t : List Char) :
    replGo old new (pre ++ t) pre.length = replGo old new t 0 := by
  induction pre with
  | nil => rfl
  | cons c pre2 ih => simpa [replGo] using ih

/-- A successful needle test at the head of a list yields the matching
decomposition. -/
theorem isPrefixOf_exists_append {l1 l2 : List Char} (h : List.isPrefixOf l1 l2 = true) :
    ∃ t, l1 ++ t = l2 := by
  induction l1 generalizing l2 with
  | nil => exact ⟨l2, rfl⟩
  | cons a as ih =>
    cases l2 with
    | nil => simp [List.isPrefixOf] at h
    | cons b bs =>
      simp only [List.isPrefixOf, Bool.and_eq_true, beq_iff_eq] at h
      obtain ⟨rfl, h2⟩ := h
      obtain ⟨t, ht⟩ := ih h2
      exact ⟨t, by rw [List.cons_append, ht]⟩

/-- Replacing a non-empty needle by itself is the identity. -/
theorem replGo_self (old : List Char) (hold : old ≠ []) :
    ∀ (n : Nat) (s : List Char), s.length ≤ n → replGo old old s 0 = s := by
  intro n
  induction n with
  | zero =>
    intro s hs
    have hnil : s = [] := by
      cases s with
      | nil => rfl
      | cons c rest => simp at hs
    subst hnil; rfl
  | succ n ih =>
    intro s hs
    cases s with
    | nil => rfl
    | cons c rest =>
      by_cases h : List.isPrefixOf old (c :: rest)
      · obtain ⟨t, ht⟩ := isPrefixOf_exists_append h
        obtain ⟨o, old2, rfl⟩ := List.exists_cons_of_ne_nil hold
        rw [List.cons_append] at ht
        obtain ⟨rfl, hrest⟩ := List.cons.inj ht
        have hstep : replGo (o :: old2) (o :: old2) (o :: rest) 0 =
            (o :: old2) ++ replGo (o :: old2) (o :: old2) rest ((o :: old2).length - 1) := by
          simp [replGo, h]
        have hlen : (o :: old2).length - 1 = old2.length := by simp
        have htlen : t.length ≤ n := by
          have h1 : rest.length ≤ n := by simpa using hs
          have h2 : t.length ≤ rest.length := by
            rw [← hrest]; simp
          omega
        rw [hstep, hlen, ← hrest, replGo_skip, ih t htlen]
        simp
      · have hstep : replGo old old (c :: rest) 0 = c :: replGo old old rest 0 := by
          simp [replGo, h]
        rw [hstep, ih rest (by simpa using hs)]

/-- Python `t.replace(f, f)` is the identity. -/
theorem pyReplace_self (t f : String) : pyReplace t f f = t := by
  unfold pyReplace pyReplaceL
  by_cases h : f.data = []
  · rw [if_pos h, h, replEmpty_nil]
  · rw [if_neg h, replGo_self f.data h t.data.length t.data le_rfl]

/-- C8 (amended): a rule with find equal to replace in exact literal mode
(regex false, ignoreCase false) yields output equal to the input. -/
theorem literal_noop_rule_identity (ora : Oracle) (t f : String) :
    apply_replacements_to_text ora t [⟨f, f, false, false⟩] = some t := by
  unfold apply_replacements_to_text
  by_cases ht : t = ""
  · rw [if_pos ht]
  · rw [if_neg ht, applyLoop_cons]
    have h1 : applyOne ora t ⟨f, f, false, false⟩ = some (pyReplace t f f) := rfl
    rw [h1]
    simp [applyLoop, pyReplace_self]

/-- C8 counterexample: with ignoreCase true a rule whose find equals its
replace is not a no-op — find "a", replace "a" rewrites "A" to "a". -/
theorem noop_rule_counterexample :
    apply_replacements_to_text oraNone "A" [⟨"a", "a", false, true⟩] = some "a" ∧
      ("a" : String) ≠ "A" := by decide

/-!  Lemmas about the traversal combinator `stepList`. -/

/-- Traversal preserves any projection that each step preserves. -/
theorem stepList_map {β γ : Type} (f : β → β × Log × Bool) (g : β → γ)
    (h : ∀ x, g (f x).1 = g x) (l : List β) :
    (stepList f l).1.map g = l.map g := by
  induction l with
  | nil => rfl
  | cons x xs ih =>
    simp only [stepList]
    cases hf : (f x).2.2 <;> simp [hf, h x, ih]

/-- Every pair of the traversal's write log comes from some element's
step, so a property of all step logs holds of the whole log. -/
theorem stepList_log {β : Type} (f : β → β × Log × Bool)
    (h : ∀ x, ∀ pr ∈ (f x).2.1, pr.1 ≠ pr.2) (l : List β) :
    ∀ pr ∈ (stepList f l).2.1, pr.1 ≠ pr.2 := by
  induction l with
  | nil => intro pr hpr; simp [stepList] at hpr
  | cons x xs ih =>
    intro pr hpr
    simp only [stepList] at hpr
    cases hf : (f x).2.2
    · rw [hf] at hpr
      simp at hpr
      rcases hpr with hpr | hpr
      · exact h x pr hpr
      · exact ih pr hpr
    · rw [hf] at hpr
      simp at hpr
      exact h x pr hpr

/-- When the traversal reports no error, it behaved as a plain map and
every element's step reported no error. -/
theorem stepList_noerr {β : Type} (f : β → β × Log × Bool) (l : List β)
    (h : (stepList f l).2.2 = false) :
    (stepList f l).1 = l.map (fun x => (f x).1) ∧ ∀ x ∈ l, (f x).2.2 = false := by
  induction l with
  | nil => exact ⟨rfl, by simp⟩
  | cons x xs ih =>
    cases hf : (f x).2.2 with
    | true =>
      exfalso
      have htrue : (stepList f (x :: xs)).2.2 = true := by simp [stepList, hf]
      rw [h] at htrue
      exact Bool.false_ne_true htrue
    | false =>
      have hx : (stepList f (x :: xs)).1 = (f x).1 :: (stepList f xs).1 := by
        simp [stepList, hf]
      have he : (stepList f (x :: xs)).2.2 = (stepList f xs).2.2 := by
        simp [stepList, hf]
      obtain ⟨h1, h2⟩ := ih (he ▸ h)
      constructor
      · rw [hx, h1]; simp
      · intro y hy
        rcases List.mem_cons.mp hy with rfl | hy2
        · exact hf
        · exact h2 y hy2

/-!  Lemmas about the per-text-unit step. -/

/-- `stepText` when the transformer succeeded. -/
theorem stepText_eq_some (ora : Oracle) (rs : List Replacement) (t nt : String)
    (h : apply_replacements_to_text ora t rs = some nt) :
    stepText ora rs t = if nt ≠ t then (nt, [(t, nt)], false) else (t, [], false) := by
  unfold stepText; rw [h]

/-- `stepText` when the transformer raised: nothing written, error set. -/
theorem stepText_eq_none (ora : Oracle) (rs : List Replacement) (t : String)
    (h : apply_replacements_to_text ora t rs = none) :
    stepText ora rs t = (t, [], true) := by
  unfold stepText; rw [h]

/-- Every write the walker logs changed the text. -/
theorem stepText_log (ora : Oracle) (rs : List Replacement) (t : String) :
    ∀ pr ∈ (stepText ora rs t).2.1, pr.1 ≠ pr.2 := by
  intro pr hpr
  cases happ : apply_replacements_to_text ora t rs with
  | none => rw [stepText_eq_none ora rs t happ] at hpr; simp at hpr
  | some nt =>
    rw [stepText_eq_some ora rs t nt happ] at hpr
    by_cases hne : nt ≠ t
    · rw [if_pos hne] at hpr
      simp at hpr
      rw [hpr]
      exact fun hcon => hne hcon.symm
    · rw [if_neg hne] at hpr
      simp at hpr

/-- When the transformer did not raise, the resulting text is the
transformed text (whether or not it was written back). -/
theorem stepText_noerr (ora : Oracle) (rs : List Replacement) (t : String)
    (h : (stepText ora rs t).2.2 = false) :
    (stepText ora rs t).1 = (apply_replacements_to_text ora t rs).getD t := by
  cases happ : apply_replacements_to_text ora t rs with
  | none =>
    exfalso
    rw [stepText_eq_none ora rs t happ] at h
    simp at h
  | some nt =>
    rw [stepText_eq_some ora rs t nt happ]
    by_cases hne : nt ≠ t
    · rw [if_pos hne]; rfl
    · rw [if_neg hne]
      simp only [not_not] at hne
      simp [hne]

/-!  Text erasure commutes with every level of the walker. -/

/-- A run's step changes only its text. -/
theorem stepRun_strip (ora : Oracle) (rs : List Replacement) (r : Run α) :
    stripRun (stepRun ora rs r).1 = stripRun r := rfl

/-- A cell's step changes only its text. -/
theorem stepCell_strip (ora : Oracle) (rs : List Replacement) (c : TableCell) :
    stripCell (stepCell ora rs c).1 = stripCell c := rfl

/-- Walking a paragraph changes only run texts. -/
theorem walkPara_strip (ora : Oracle) (rs : List Replacement) (p : Paragraph α) :
    stripPara (walkPara ora rs p).1 = stripPara p :=
  congrArg Paragraph.mk (stepList_map _ stripRun (stepRun_strip ora rs) p.runs)

/-- Walking a text frame changes only run texts. -/
theorem walkTF_strip (ora : Oracle) (rs : List Replacement) (tf : TextFrame α) :
    stripTF (walkTF ora rs tf).1 = stripTF tf :=
  congrArg TextFrame.mk (stepList_map _ stripPara (walkPara_strip ora rs) tf.paragraphs)

/-- Walking a table row changes only cell texts. -/
theorem walkRow_strip (ora : Oracle) (rs : List Replacement) (row : List TableCell) :
    (walkRow ora rs row).1.map stripCell = row.map stripCell :=
  stepList_map _ stripCell (stepCell_strip ora rs) row

/-- Walking a table changes only cell texts. -/
theorem walkTable_strip (ora : Oracle) (rs : List Replacement) (t : Table) :
    stripTable (walkTable ora rs t).1 = stripTable t :=
  congrArg Table.mk (stepList_map _ (List.map stripCell) (walkRow_strip ora rs) t.cells)

/-- Walking a shape changes only texts and never its kind. -/
theorem walkShape_strip (ora : Oracle) (rs : List Replacement) (sh : Shape α) :
    stripShape (walkShape ora rs sh).1 = stripShape sh := by
  cases sh with
  | table t => exact congrArg Shape.table (walkTable_strip ora rs t)
  | textFrame tf => exact congrArg Shape.textFrame (walkTF_strip ora rs tf)
  | other => rfl

/-- Walking a slide changes only texts, in body and notes. -/
theorem walkSlide_strip (ora : Oracle) (rs : List Replacement) (s : Slide α) :
    stripSlide (walkSlide ora rs s).1 = stripSlide s := by
  unfold walkSlide
  have hshapes := stepList_map _ stripShape (walkShape_strip ora rs) s.shapes
  cases hf : (stepList (walkShape ora rs) s.shapes).2.2
  · cases hn : s.notes with
    | none => simp [hf, hn, stripSlide, hshapes]
    | some ntf => simp [hf, hn, stripSlide, hshapes, walkTF_strip ora rs ntf]
  · simp [hf, stripSlide, hshapes]

/-!  The write logs, level by level. -/

/-- Runs log only genuine changes. -/
theorem stepRun_log (ora : Oracle) (rs : List Replacement) (r : Run α) :
    ∀ pr ∈ (stepRun ora rs r).2.1, pr.1 ≠ pr.2 :=
  stepText_log ora rs r.text

/-- Cells log only genuine changes. -/
theorem stepCell_log (ora : Oracle) (rs : List Replacement) (c : TableCell) :
    ∀ pr ∈ (stepCell ora rs c).2.1, pr.1 ≠ pr.2 :=
  stepText_log ora rs c.text

/-- Paragraphs log only genuine changes. -/
theorem walkPara_log (ora : Oracle) (rs : List Replacement) (p : Paragraph α) :
    ∀ pr ∈ (walkPara ora rs p).2.1, pr.1 ≠ pr.2 :=
  stepList_log _ (stepRun_log ora rs) p.runs

/-- Text frames log only genuine changes. -/
theorem walkTF_log (ora : Oracle) (rs : List Replacement) (tf : TextFrame α) :
    ∀ pr ∈ (walkTF ora rs tf).2.1, pr.1 ≠ pr.2 :=
  stepList_log _ (walkPara_log ora rs) tf.paragraphs

/-- Table rows log only genuine changes. -/
theorem walkRow_log (ora : Oracle) (rs : List Replacement) (row : List TableCell) :
    ∀ pr ∈ (walkRow ora rs row).2.1, pr.1 ≠ pr.2 :=
  stepList_log _ (stepCell_log ora rs) row

/-- Tables log only genuine changes. -/
theorem walkTable_log (ora : Oracle) (rs : List Replacement) (t : Table) :
    ∀ pr ∈ (walkTable ora rs t).2.1, pr.1 ≠ pr.2 :=
  stepList_log _ (walkRow_log ora rs) t.cells

/-- Shapes log only genuine changes. -/
theorem walkShape_log (ora : Oracle) (rs : List Replacement) (sh : Shape α) :
    ∀ pr ∈ (walkShape ora rs sh).2.1, pr.1 ≠ pr.2 := by
  cases sh with
  | table t => exact walkTable_log ora rs t
  | textFrame tf => exact walkTF_log ora rs tf
  | other => intro pr hpr; simp [walkShape] at hpr

/-- Slides log only genuine changes. -/
theorem walkSlide_log (ora : Oracle) (rs : List Replacement) (s : Slide α) :
    ∀ pr ∈ (walkSlide ora rs s).2.1, pr.1 ≠ pr.2 := by
  intro pr hpr
  simp only [walkSlide] at hpr
  have hshapes := stepList_log _ (walkShape_log ora rs) s.shapes
  cases hf : (stepList (walkShape ora rs) s.shapes).2.2
  · rw [hf] at hpr
    cases hn : s.notes with
    | none =>
      rw [hn] at hpr
      simp at hpr
      exact hshapes pr hpr
    | some ntf =>
      rw [hn] at hpr
      simp at hpr
      rcases hpr with hpr | hpr
      · exact hshapes pr hpr
      · exact walkTF_log ora rs ntf pr hpr
  · rw [hf] at hpr
    simp at hpr
    exact hshapes pr hpr

/-- C2: for every presentation and rule list, the walker mutates only
text content: erasing all texts commutes with the walk (so no slide,
shape, paragraph, run or cell is created or deleted and every run keeps
its non-text attributes), and every write-back the walker performs is of
a value that differs from the original. -/
theorem walker_mutates_only_text (ora : Oracle) (rs : List Replacement) (p : Presentation α) :
    stripPres (replace_text_in_presentation ora rs p).1 = stripPres p ∧
      ∀ pr ∈ (replace_text_in_presentation ora rs p).2.1, pr.1 ≠ pr.2 := by
  constructor
  · exact congrArg Presentation.mk (stepList_map _ stripSlide (walkSlide_strip ora rs) p.slides)
  · exact stepList_log _ (walkSlide_log ora rs) p.slides

/-- A one-slide presentation with one bold-ish run containing "x". -/
def presEx : Presentation Nat :=
  ⟨[⟨[Shape.textFrame ⟨[⟨[⟨"x", 7⟩]⟩]⟩], none⟩]⟩

/-- C2 witness: on a concrete presentation the walk preserves the
text-erased skeleton, and the one logged write (x became y) changed the
text. -/
theorem walker_mutates_only_text_witness :
    stripPres (replace_text_in_presentation oraNone [⟨"x", "y", false, false⟩] presEx).1 =
      stripPres presEx ∧ ("x" : String) ≠ "y" := by
  have h := walker_mutates_only_text oraNone [⟨"x", "y", false, false⟩] presEx
  exact ⟨h.1, h.2 ("x", "y") (by decide)⟩

/-- A run whose transformer call succeeded keeps everything but its text,
which becomes exactly the transformer's output on that run's text. -/
theorem stepRun_noerr (ora : Oracle) (rs : List Replacement) (r : Run α)
    (h : (stepRun ora rs r).2.2 = false) :
    (stepRun ora rs r).1 = ⟨(apply_replacements_to_text ora r.text rs).getD r.text, r.fmt⟩ := by
  have ht : (stepText ora rs r.text).2.2 = false := h
  have hv := stepText_noerr ora rs r.text ht
  show (⟨(stepText ora rs r.text).1, r.fmt⟩ : Run α) = _
  rw [hv]

/-- C7: the Walker transforms a text frame run by run, in paragraph
order: when no exception occurs, every output run is the input run with
the Transformer applied to that run's text alone (never to a paragraph's
concatenated text), all other run attributes untouched; and a run's text
is overwritten only when the transformed value differs. -/
theorem runlevel_transform_per_run (ora : Oracle) (rs : List Replacement) (tf : TextFrame α)
    (h : (walkTF ora rs tf).2.2 = false) :
    (walkTF ora rs tf).1 =
      ⟨tf.paragraphs.map (fun p =>
        ⟨p.runs.map (fun r =>
          ⟨(apply_replacements_to_text ora r.text rs).getD r.text, r.fmt⟩)⟩)⟩ ∧
      ∀ pr ∈ (walkTF ora rs tf).2.1, pr.1 ≠ pr.2 := by
  constructor
  · have hflag : (stepList (walkPara ora rs) tf.paragraphs).2.2 = false := h
    obtain ⟨h1, h2⟩ := stepList_noerr _ tf.paragraphs hflag
    show (⟨(stepList (walkPara ora rs) tf.paragraphs).1⟩ : TextFrame α) = _
    rw [h1]
    apply congrArg TextFrame.mk
    apply List.map_congr_left
    intro p hp
    have hpflag : (stepList (stepRun ora rs) p.runs).2.2 = false := h2 p hp
    obtain ⟨g1, g2⟩ := stepList_noerr _ p.runs hpflag
    show (⟨(stepList (stepRun ora rs) p.runs).1⟩ : Paragraph α) = _
    rw [g1]
    apply congrArg Paragraph.mk
    apply List.map_congr_left
    intro r hr
    exact stepRun_noerr ora rs r (g2 r hr)
  · exact walkTF_log ora rs tf

/-- C7 witness: a rule whose find text "bc" spans the boundary between
the runs "ab" and "cd" matches nothing — the frame is unchanged. -/
theorem runlevel_no_cross_run_match :
    (walkTF oraNone [⟨"bc", "X", false, false⟩]
        (⟨[⟨[⟨"ab", 0⟩, ⟨"cd", 0⟩]⟩]⟩ : TextFrame Nat)).1 =
      ⟨[⟨[⟨"ab", 0⟩, ⟨"cd", 0⟩]⟩]⟩ := by
  have h := runlevel_transform_per_run oraNone [⟨"bc", "X", false, false⟩]
    (⟨[⟨[⟨"ab", 0⟩, ⟨"cd", 0⟩]⟩]⟩ : TextFrame Nat) (by decide)
  exact h.1.trans (by decide)

/-- The slide-level error flag is exactly the one of its shapes
traversal: an exception in the notes block is swallowed by the
try/except. -/
theorem walkSlide_err (ora : Oracle) (rs : List Replacement) (s : Slide α) :
    (walkSlide ora rs s).2.2 = (stepList (walkShape ora rs) s.shapes).2.2 := by
  cases hf : (stepList (walkShape ora rs) s.shapes).2.2
  · cases hn : s.notes <;> simp [walkSlide, hf, hn]
  · simp [walkSlide, hf]

/-- C9: the Walker applies the same run-level transform to the notes text
frame when the slide has a notes container, and treats an absent (or
inaccessible) notes container as a silent no-op: in both cases the notes
handling raises no error — the slide's error flag is exactly the one of
its shapes — and processing continues. -/
theorem notes_transform_and_silent_skip (ora : Oracle) (rs : List Replacement) (s : Slide α) :
    (walkSlide ora rs s).2.2 = (stepList (walkShape ora rs) s.shapes).2.2 ∧
      ((stepList (walkShape ora rs) s.shapes).2.2 = false →
        (walkSlide ora rs s).1.notes = Option.map (fun n => (walkTF ora rs n).1) s.notes ∧
        (walkSlide ora rs s).1.shapes = (stepList (walkShape ora rs) s.shapes).1) := by
  refine ⟨walkSlide_err ora rs s, ?_⟩
  intro hf
  cases hn : s.notes <;> simp [walkSlide, hf, hn]

/-- A slide with no body shapes and one notes run. -/
def slideEx : Slide Nat := ⟨[], some ⟨[⟨[⟨"q", 0⟩]⟩]⟩⟩

/-- C9 witness: on a concrete slide the notes frame is transformed by the
same run-level walk. -/
theorem notes_transform_example :
    (walkSlide oraNone [⟨"q", "z", false, false⟩] slideEx).1.notes =
      Option.map (fun n => (walkTF oraNone [⟨"q", "z", false, false⟩] n).1) slideEx.notes :=
  ((notes_transform_and_silent_skip oraNone [⟨"q", "z", false, false⟩] slideEx).2 (by decide)).1

/-!  Validation (C6). -/

/-- One record validates exactly when it is well-formed. -/
theorem validateItem_ok_iff (v : JValue) :
    (∃ r, validateItem v = Except.ok r) ↔ itemWF v = true := by
  cases v with
  | obj fs =>
    simp only [validateItem, itemWF]
    cases h1 : fs.lookup "find" with
    | none => simp
    | some w1 =>
      cases w1 <;> simp
      case str f =>
        cases h2 : fs.lookup "replace" with
        | none => simp
        | some w2 =>
          cases w2 <;> simp
          case str rep =>
            cases h3 : fieldBool (fs.lookup "regex") with
            | none => simp [h3]
            | some rg =>
              cases h4 : fieldBool (fs.lookup "ignore_case") with
              | none => simp [h3, h4]
              | some ic => simp [h3, h4]
  | null => simp [validateItem, itemWF]
  | bool b => simp [validateItem, itemWF]
  | num n => simp [validateItem, itemWF]
  | str s => simp [validateItem, itemWF]
  | arr items => simp [validateItem, itemWF]

/-- A list of records validates exactly when each is well-formed. -/
theorem mapM_validateItem_ok_iff (items : List JValue) :
    (∃ l, items.mapM validateItem = Except.ok l) ↔ items.all itemWF = true := by
  induction items with
  | nil => exact ⟨fun _ => rfl, fun _ => ⟨[], rfl⟩⟩
  | cons x xs ih =>
    rw [List.mapM_cons]
    constructor
    · rintro ⟨l, hl⟩
      cases hx : validateItem x with
      | error e =>
        rw [hx] at hl
        simp [Bind.bind, Except.bind] at hl
      | ok r =>
        rw [hx] at hl
        cases hxs : xs.mapM validateItem with
        | error e =>
          rw [hxs] at hl
          simp [Bind.bind, Except.bind] at hl
        | ok l2 =>
          have hwx : itemWF x = true := (validateItem_ok_iff x).mp ⟨r, hx⟩
          have hwxs : xs.all itemWF = true := ih.mp ⟨l2, hxs⟩
          simp [List.all_cons, hwx, hwxs]
    · intro hall
      simp only [List.all_cons, Bool.and_eq_true] at hall
      obtain ⟨hx, hxs⟩ := hall
      obtain ⟨r, hr⟩ := (validateItem_ok_iff x).mpr hx
      obtain ⟨l2, hl2⟩ := ih.mpr hxs
      refine ⟨r :: l2, ?_⟩
      rw [hr, hl2]
      rfl

/-- The payload validates exactly when it is a well-formed list. -/
theorem validateReplacements_ok_iff (v : JValue) :
    (∃ l, validateReplacements v = Except.ok l) ↔ payloadWF v = true := by
  cases v with
  | arr items => exact mapM_validateItem_ok_iff items
  | null => simp [validateReplacements, payloadWF]
  | bool b => simp [validateReplacements, payloadWF]
  | num n => simp [validateReplacements, payloadWF]
  | str s => simp [validateReplacements, payloadWF]
  | obj fs => simp [validateReplacements, payloadWF]

/-- C6 (amended): rule validation accepts exactly the payloads that are
lists of objects supplying `find` and `replace` strings (find may be
empty; replace has no default) with well-formed optional flags; `regex`
and `ignoreCase` default to false when absent; and an ill-formed payload
is surfaced by the endpoint as an InvalidInput (HTTP 400) response. -/
theorem validation_characterization :
    (∀ v : JValue, (∃ l, validateReplacements v = Except.ok l) ↔ payloadWF v = true) ∧
    (∀ f rep : String,
      validateItem (JValue.obj [("find", JValue.str f), ("replace", JValue.str rep)]) =
        Except.ok ⟨f, rep, false, false⟩) ∧
    (∀ (ora : Oracle) (filename : String) (v : JValue) (p : Presentation Nat),
      filenameOk filename = true → payloadWF v = false →
      ∃ d, modify_pptx ora filename (some v) (some p) = ApiResponse.badRequest d) := by
  refine ⟨validateReplacements_ok_iff, fun f rep => rfl, ?_⟩
  intro ora filename v p hf hbad
  cases hv : validateReplacements v with
  | error e =>
    exact ⟨"Invalid replacements payload: " ++ e, by simp [modify_pptx, hf, hv]⟩
  | ok l =>
    exfalso
    have : payloadWF v = true := (validateReplacements_ok_iff v).mp ⟨l, hv⟩
    rw [hbad] at this
    exact Bool.false_ne_true this

/-- C6 counterexample: the claim's acceptance condition is wrong on both
sides — a record supplying only a non-empty find is rejected (replace
does not default to the empty string: it is a required field), while a
record with an empty find is accepted. -/
theorem validation_counterexample :
    validateReplacements (JValue.arr [JValue.obj [("find", JValue.str "x")]]) =
      Except.error "field required: replace" ∧
    validateItem (JValue.obj [("find", JValue.str ""), ("replace", JValue.str "y")]) =
      Except.ok ⟨"", "y", false, false⟩ := ⟨rfl, rfl⟩

/-- C6 witness: a payload that is not a list is rejected by the endpoint
with an InvalidInput (HTTP 400) response. -/
theorem validation_characterization_witness :
    ∃ d, modify_pptx (α := Nat) oraNone "deck.pptx" (some (JValue.str "x")) (some ⟨[]⟩) =
      ApiResponse.badRequest d :=
  validation_characterization.2.2 oraNone "deck.pptx" (JValue.str "x") ⟨[]⟩
    (by decide) (by decide)

/-!  Error surfacing (C10). -/

/-- C10 (amended): with a well-formed filename and rule payload, an
unexpected failure while traversing the slide shapes surfaces to the
caller as a generic server failure — distinct from the InvalidInput
responses — and otherwise the mutated presentation is returned; but a
failure inside a slide's notes handling is silently swallowed (the
slide's error flag is exactly its shapes traversal's flag). -/
theorem processing_error_surfacing (ora : Oracle) (filename : String) (v : JValue)
    (reps : List Replacement) (p : Presentation α)
    (hf : filenameOk filename = true)
    (hv : validateReplacements v = Except.ok reps) :
    modify_pptx ora filename (some v) (some p) =
      (if (replace_text_in_presentation ora reps p).2.2 then ApiResponse.serverError
       else ApiResponse.ok (replace_text_in_presentation ora reps p).1
         ("modified-" ++ filename)) ∧
    ∀ s : Slide α, (walkSlide ora reps s).2.2 = (stepList (walkShape ora reps) s.shapes).2.2 := by
  constructor
  · simp [modify_pptx, hf, hv]
  · intro s
    exact walkSlide_err ora reps s

/-- C10 witness: a request with a valid filename, an empty rule list and
an empty presentation succeeds and returns the (unchanged) presentation
with the modified- filename. -/
theorem processing_error_surfacing_witness :
    modify_pptx (α := Nat) oraNone "deck.pptx" (some (JValue.arr [])) (some ⟨[]⟩) =
      ApiResponse.ok ⟨[]⟩ "modified-deck.pptx" := by
  have h := processing_error_surfacing oraNone "deck.pptx" (JValue.arr []) []
    (⟨[]⟩ : Presentation Nat) (by decide) rfl
  exact h.1.trans (by decide)

/-- C10 counterexample: an unexpected failure while applying the rules
inside the notes block — the transformer raising on the rule find "a",
replace a lone backslash, ignoreCase true (second conjunct) — is
silently swallowed by the walker's try/except, so the request succeeds
and returns the presentation with its notes text unchanged, instead of
surfacing the traversal failure. -/
theorem notes_error_swallowed :
    modify_pptx oraNone "deck.pptx"
        (some (JValue.arr [JValue.obj
          [("find", JValue.str "a"), ("replace", JValue.str "\\"),
           ("ignore_case", JValue.bool true)]]))
        (some (⟨[⟨[], some ⟨[⟨[⟨"a", 0⟩]⟩]⟩⟩]⟩ : Presentation Nat)) =
      ApiResponse.ok ⟨[⟨[], some ⟨[⟨[⟨"a", 0⟩]⟩]⟩⟩]⟩ "modified-deck.pptx" ∧
    apply_replacements_to_text oraNone "a" [⟨"a", "\\", false, true⟩] = none := by decide

end DeckDoctor
